import Mathlib

/-!
A shallow embedding of the circuit-management portal (a React/TypeScript
single-page application) and proofs about its validation and record-update
logic.

The embedded code comes from:
* `src/components/CircuitDetails.tsx` — the edit flow (`validateField`,
  `handleEdit`, `handleCancel`, `handleSave`, `handleFieldChange`);
* the client-registration component — the registration flow
  (`validateField`, `handleSubmit`);
* `src/components/Header.tsx` (`CircuitSearch`) — the demo record list
  `mockCircuits` and the lookup `handleSearch`.

JavaScript string primitives used by that code (`parseInt`, `trim`,
`toLowerCase`, `split('.')`, the regexes `/^(\d\x7b1,3\x7d\.)\x7b3\x7d\d\x7b1,3\x7d$/`
and `/^\d+\s*(Mbps|Gbps|Kbps)$/i`, and
`replace(/\b\w/g, l => l.toUpperCase())`) are modelled explicitly over
`List Char`.  Asynchronous timers are irrelevant to the values computed and
are dropped; the wall-clock timestamp `new Date().toLocaleString()` is
modelled as an explicit `now : String` parameter.
-/

/-- The set of JavaScript whitespace characters: the ECMAScript `WhiteSpace`
and `LineTerminator` productions, which is what `String.prototype.trim`,
`parseInt` leading-whitespace skipping, and the regex class `\s` all use. -/
def jsWhitespaceChars : List Char :=
  ['\t', '\n', '\u000B', '\u000C', '\r',
   ' ', '\u00A0', '\u1680', '\u2000',
   '\u2001', '\u2002', '\u2003', '\u2004',
   '\u2005', '\u2006', '\u2007', '\u2008',
   '\u2009', '\u200A', '\u2028', '\u2029',
   '\u202F', '\u205F', '\u3000', '\uFEFF']

/-- Membership in the JavaScript whitespace set. -/
def isSpaceJS (c : Char) : Bool :=
  jsWhitespaceChars.contains c

/-- The regex character class `\d`: an ASCII decimal digit. -/
def isDigitC (c : Char) : Bool :=
  decide ('0' ≤ c) && decide (c ≤ '9')

/-- A hexadecimal digit, as accepted by `parseInt` after a `0x` prefix. -/
def isHexDigitC (c : Char) : Bool :=
  isDigitC c || (decide ('a' ≤ c) && decide (c ≤ 'f')) ||
    (decide ('A' ≤ c) && decide (c ≤ 'F'))

/-- ASCII lower-casing of one character, as JavaScript `toLowerCase` and the
regex `i` flag act on the ASCII characters appearing in this program. -/
def toLowerC (c : Char) : Char :=
  if 'A' ≤ c ∧ c ≤ 'Z' then Char.ofNat (c.toNat + 32) else c

/-- ASCII upper-casing of one character (JavaScript `toUpperCase`). -/
def toUpperC (c : Char) : Char :=
  if 'a' ≤ c ∧ c ≤ 'z' then Char.ofNat (c.toNat - 32) else c

/-- The regex character class `\w`: ASCII letters, digits and underscore. -/
def wordCharJS (c : Char) : Bool :=
  isDigitC c || (decide ('a' ≤ c) && decide (c ≤ 'z')) ||
    (decide ('A' ≤ c) && decide (c ≤ 'Z')) || c == '_'

/-- Numeric value of a decimal or hexadecimal digit character. -/
def hexDigitVal (c : Char) : Nat :=
  if 97 ≤ c.toNat then c.toNat - 87
  else if 65 ≤ c.toNat then c.toNat - 55
  else c.toNat - 48

/-- Value of a digit string in the given base, most significant digit first. -/
def digitsVal (base : Nat) (ds : List Char) : Nat :=
  ds.foldl (fun acc c => acc * base + hexDigitVal c) 0

/-- Decimal case of `parseInt`: the longest leading run of decimal digits;
no digits at all gives `NaN` (modelled as `none`). -/
def jsParseIntDec (sign : Int) (cs : List Char) : Option Int :=
  let ds := cs.takeWhile isDigitC
  if ds.isEmpty then none else some (sign * (digitsVal 10 ds : Nat))

/-- `parseInt` after whitespace and sign handling: an optional `0x`/`0X`
prefix selects base 16, otherwise decimal. -/
def jsParseIntFrom (sign : Int) (cs : List Char) : Option Int :=
  match cs with
  | c :: x :: t =>
    if c = '0' ∧ (x = 'x' ∨ x = 'X') then
      let ds := t.takeWhile isHexDigitC
      if ds.isEmpty then none else some (sign * (digitsVal 16 ds : Nat))
    else jsParseIntDec sign (c :: x :: t)
  | _ => jsParseIntDec sign cs

/-- Sign handling of `parseInt`: a single optional leading `-` or `+`. -/
def jsParseIntSigned : List Char → Option Int
  | [] => jsParseIntFrom 1 []
  | c :: t =>
    if c = '-' then jsParseIntFrom (-1) t
    else if c = '+' then jsParseIntFrom 1 t
    else jsParseIntFrom 1 (c :: t)

/-- JavaScript `parseInt(value)` with no radix argument: skip leading
whitespace, read an optional sign, then parse digits; `NaN` is `none`. -/
def jsParseInt (s : String) : Option Int :=
  jsParseIntSigned (s.data.dropWhile isSpaceJS)

/-- Drop trailing JavaScript whitespace. -/
def trimRight (cs : List Char) : List Char :=
  (cs.reverse.dropWhile isSpaceJS).reverse

/-- JavaScript `String.prototype.trim`. -/
def jsTrim (s : String) : String :=
  String.mk (trimRight (s.data.dropWhile isSpaceJS))

/-- JavaScript `String.prototype.toLowerCase` on the ASCII strings this
program compares. -/
def jsToLower (s : String) : String :=
  String.mk (s.data.map toLowerC)

/-- JavaScript `value.split('.')` (string separator, no regex): the list of
maximal dot-free chunks, including empty ones. -/
def splitOnDots : List Char → List (List Char)
  | [] => [[]]
  | c :: t =>
    if c = '.' then [] :: splitOnDots t
    else
      match splitOnDots t with
      | [] => [[c]]
      | h :: r => (c :: h) :: r

/-- One group of the dotted-quad regex: one to three `\d` characters. -/
def octetShape (p : List Char) : Bool :=
  decide (1 ≤ p.length) && decide (p.length ≤ 3) && p.all isDigitC

/-- The shape test `/^(\d\x7b1,3\x7d\.)\x7b3\x7d\d\x7b1,3\x7d$/.test(value)` shared by the
`client_ip`, `subnet` and `dns` rules: four dot-separated groups of one to
three digits. -/
def ipShape (value : String) : Bool :=
  match splitOnDots value.data with
  | [a, b, c, d] => octetShape a && octetShape b && octetShape c && octetShape d
  | _ => false

/-- One step of `parts.some(part => parseInt(part) > 255)`: `NaN > 255`
is false in JavaScript, so `none` yields `false`. -/
def jsGt255 (p : List Char) : Bool :=
  match jsParseInt (String.mk p) with
  | some n => decide (255 < n)
  | none => false

/-- `value.split('.').some(part => parseInt(part) > 255)`. -/
def anyOctetOver255 (value : String) : Bool :=
  (splitOnDots value.data).any jsGt255

/-- The unit alternatives of the bandwidth regex, lower-cased. -/
def bwUnits : List (List Char) :=
  [['m', 'b', 'p', 's'], ['g', 'b', 'p', 's'], ['k', 'b', 'p', 's']]

/-- `value.match(/^\d+\s*(Mbps|Gbps|Kbps)$/i) !== null`: one or more digits,
then optional whitespace, then one of the three units case-insensitively.
Since no unit starts with a digit or whitespace character, the anchored
regex is recognised by maximal-munch scanning. -/
def bandwidthOk (value : String) : Bool :=
  let d := value.data.takeWhile isDigitC
  let r := value.data.dropWhile isDigitC
  !d.isEmpty && decide ((r.dropWhile isSpaceJS).map toLowerC ∈ bwUnits)

/-- The shared `vlan` rule: `parseInt`, then reject `NaN`, values below 1
and values above 4094, with the message used by both components. -/
def vlanRule (value : String) : String :=
  match jsParseInt value with
  | none => "VLAN must be between 1-4094"
  | some n => if n < 1 ∨ 4094 < n then "VLAN must be between 1-4094" else ""

/-- The shared `bandwidth` rule with its error message. -/
def bandwidthRule (value : String) : String :=
  if bandwidthOk value then ""
  else "Bandwidth must include unit (e.g., 100 Mbps, 1 Gbps)"

/-- The dotted-quad rule of the edit path: shape first, then the octet
bound, with per-field messages. -/
def ipRuleEdit (value shapeErr octErr : String) : String :=
  if ipShape value then (if anyOctetOver255 value then octErr else "") else shapeErr

/-- `validateField` of the client-registration component: `circuit_id` and
`client_name` length checks, dotted-quad shape (only) for `client_ip`,
`subnet` and `dns`, the shared `vlan` and `bandwidth` rules, and length
checks for `location`, `mux_id` and `port_id`.  Unknown fields validate. -/
def validateFieldReg (field value : String) : String :=
  if field = "circuit_id" then
    if value.length < 3 then "Circuit ID must be at least 3 characters" else ""
  else if field = "client_name" then
    if value.length < 2 then "Client name must be at least 2 characters" else ""
  else if field = "client_ip" then
    if ipShape value then "" else "Invalid IP address format"
  else if field = "subnet" then
    if ipShape value then "" else "Invalid subnet mask format"
  else if field = "dns" then
    if ipShape value then "" else "Invalid DNS server format"
  else if field = "vlan" then vlanRule value
  else if field = "bandwidth" then bandwidthRule value
  else if field = "location" then
    if value.length < 3 then "Location must be at least 3 characters" else ""
  else if field = "mux_id" then
    if value.length < 3 then "MUX ID must be at least 3 characters" else ""
  else if field = "port_id" then
    if value.length < 3 then "Port ID must be at least 3 characters" else ""
  else ""

/-- `validateField` of `CircuitDetails.tsx`: dotted-quad shape plus octet
bound for `client_ip`, `subnet` and `dns`, the shared `vlan` and
`bandwidth` rules, and the `client_name` length check.  The switch has no
case for `location`, `mux_id` or `port_id`, so those fields always
validate. -/
def validateFieldEdit (field value : String) : String :=
  if field = "client_ip" then
    ipRuleEdit value "Invalid IP address format" "IP address octets must be 0-255"
  else if field = "subnet" then
    ipRuleEdit value "Invalid subnet mask format" "Subnet mask octets must be 0-255"
  else if field = "dns" then
    ipRuleEdit value "Invalid DNS server format" "DNS server octets must be 0-255"
  else if field = "vlan" then vlanRule value
  else if field = "bandwidth" then bandwidthRule value
  else if field = "client_name" then
    if value.length < 2 then "Client name must be at least 2 characters" else ""
  else ""

/-- The `Circuit` record type from `src/pages/Index.tsx`. -/
structure Circuit where
  circuit_id : String
  client_name : String
  client_ip : String
  subnet : String
  dns : String
  vlan : String
  bandwidth : String
  location : String
  mux_id : String
  port_id : String
  last_updated : String
deriving DecidableEq, Repr

/-- Dynamic field read `circuit[field as keyof Circuit]`. -/
def getCircuitField (c : Circuit) (field : String) : String :=
  if field = "circuit_id" then c.circuit_id
  else if field = "client_name" then c.client_name
  else if field = "client_ip" then c.client_ip
  else if field = "subnet" then c.subnet
  else if field = "dns" then c.dns
  else if field = "vlan" then c.vlan
  else if field = "bandwidth" then c.bandwidth
  else if field = "location" then c.location
  else if field = "mux_id" then c.mux_id
  else if field = "port_id" then c.port_id
  else if field = "last_updated" then c.last_updated
  else ""

/-- Dynamic field update `\x7b ...c, [field]: value \x7d` on a `Circuit`. -/
def setCircuitField (c : Circuit) (field value : String) : Circuit :=
  if field = "circuit_id" then { c with circuit_id := value }
  else if field = "client_name" then { c with client_name := value }
  else if field = "client_ip" then { c with client_ip := value }
  else if field = "subnet" then { c with subnet := value }
  else if field = "dns" then { c with dns := value }
  else if field = "vlan" then { c with vlan := value }
  else if field = "bandwidth" then { c with bandwidth := value }
  else if field = "location" then { c with location := value }
  else if field = "mux_id" then { c with mux_id := value }
  else if field = "port_id" then { c with port_id := value }
  else if field = "last_updated" then { c with last_updated := value }
  else c

/-- The `editableFields` array of `handleSave` in `CircuitDetails.tsx`, in
source order. -/
def editableFields : List String :=
  ["client_name", "vlan", "bandwidth", "location", "mux_id", "port_id",
   "client_ip", "subnet", "dns"]

/-- One iteration of the `editableFields.forEach` loop of `handleSave`:
a non-empty `validateField` message is recorded under the field name. -/
def saveFieldError (c : Circuit) (field : String) : Option (String × String) :=
  let e := validateFieldEdit field (getCircuitField c field)
  if e = "" then none else some (field, e)

/-- The `newErrors` object built by `handleSave`: one entry per editable
field whose `validateField` result is a non-empty message, keyed by field
name, in iteration order. -/
def saveErrors (c : Circuit) : List (String × String) :=
  editableFields.filterMap (saveFieldError c)

/-- `handleSave` of `CircuitDetails.tsx`: if any editable field fails
validation the save aborts (`none`, errors are displayed and nothing is
emitted); otherwise the edited copy with `last_updated` replaced by the
current time is passed to `onUpdate`. -/
def handleSave (c : Circuit) (now : String) : Option Circuit :=
  if saveErrors c = [] then some { c with last_updated := now } else none

/-- The registration form state of the client-registration component:
all ten user-entered fields (`last_updated` is not part of the form). -/
structure RegForm where
  circuit_id : String
  client_name : String
  client_ip : String
  subnet : String
  dns : String
  vlan : String
  bandwidth : String
  location : String
  mux_id : String
  port_id : String
deriving DecidableEq, Repr

/-- The keys of the registration form in `Object.entries` order, i.e. the
insertion order of the `formData` initialiser. -/
def regFields : List String :=
  ["circuit_id", "client_name", "client_ip", "subnet", "dns", "vlan",
   "bandwidth", "location", "mux_id", "port_id"]

/-- Dynamic field read on the registration form. -/
def getRegField (f : RegForm) (field : String) : String :=
  if field = "circuit_id" then f.circuit_id
  else if field = "client_name" then f.client_name
  else if field = "client_ip" then f.client_ip
  else if field = "subnet" then f.subnet
  else if field = "dns" then f.dns
  else if field = "vlan" then f.vlan
  else if field = "bandwidth" then f.bandwidth
  else if field = "location" then f.location
  else if field = "mux_id" then f.mux_id
  else if field = "port_id" then f.port_id
  else ""

/-- First-occurrence-only `field.replace('_', ' ')` (string pattern, so
JavaScript replaces a single occurrence). -/
def replaceFirstUnderscore : List Char → List Char
  | [] => []
  | c :: t => if c = '_' then ' ' :: t else c :: replaceFirstUnderscore t

/-- `replace(/\b\w/g, l => l.toUpperCase())`: upper-case every word
character that starts a word, i.e. that is not preceded by another word
character.  The boolean argument records whether the previous character of
the original string was a word character. -/
def upcaseWordStarts (prevWord : Bool) : List Char → List Char
  | [] => []
  | c :: t =>
    (if !prevWord && wordCharJS c then toUpperC c else c) ::
      upcaseWordStarts (wordCharJS c) t

/-- The blank-field message of `handleSubmit`:
`` `${field.replace('_',' ').replace(/\b\w/g, l => l.toUpperCase())} is required` ``. -/
def requiredMsg (field : String) : String :=
  String.mk (upcaseWordStarts false (replaceFirstUnderscore field.data)) ++
    " is required"

/-- One iteration of the `Object.entries(formData).forEach` loop of
`handleSubmit`: a blank (whitespace-only) value records the required
message and skips the field validator; otherwise a non-empty validator
message is recorded. -/
def submitFieldError (f : RegForm) (field : String) : Option (String × String) :=
  let v := getRegField f field
  if jsTrim v = "" then some (field, requiredMsg field)
  else
    let e := validateFieldReg field v
    if e = "" then none else some (field, e)

/-- The `newErrors` object built by `handleSubmit`, keyed by field name in
iteration order. -/
def submitErrors (f : RegForm) : List (String × String) :=
  regFields.filterMap (submitFieldError f)

/-- `handleSubmit` of the registration component: abort (`none`) when any
field has an error, otherwise synthesize the new `Circuit` from the form
fields plus a fresh `last_updated` and pass it to `onRegister`. -/
def handleSubmit (f : RegForm) (now : String) : Option Circuit :=
  if submitErrors f = [] then
    some ⟨f.circuit_id, f.client_name, f.client_ip, f.subnet, f.dns, f.vlan,
      f.bandwidth, f.location, f.mux_id, f.port_id, now⟩
  else none

/-- The fixed demo list `mockCircuits` of `CircuitSearch` in
`src/components/Header.tsx`. -/
def mockCircuits : List Circuit :=
  [{ circuit_id := "CKT-001-NYC"
     client_name := "TechCorp Solutions"
     client_ip := "192.168.1.100"
     subnet := "255.255.255.0"
     dns := "8.8.8.8"
     vlan := "100"
     bandwidth := "1 Gbps"
     location := "New York Data Center"
     mux_id := "MUX-NYC-01"
     port_id := "Port-24"
     last_updated := "2024-06-14 10:30:00" },
   { circuit_id := "CKT-002-LAX"
     client_name := "Global Enterprises Inc"
     client_ip := "10.0.0.50"
     subnet := "255.255.0.0"
     dns := "1.1.1.1"
     vlan := "200"
     bandwidth := "500 Mbps"
     location := "Los Angeles Data Center"
     mux_id := "MUX-LAX-03"
     port_id := "Port-12"
     last_updated := "2024-06-13 15:45:00" },
   { circuit_id := "CKT-003-CHI"
     client_name := "Metro Networks LLC"
     client_ip := "172.16.10.25"
     subnet := "255.255.255.128"
     dns := "8.8.4.4"
     vlan := "150"
     bandwidth := "2 Gbps"
     location := "Chicago Data Center"
     mux_id := "MUX-CHI-02"
     port_id := "Port-08"
     last_updated := "2024-06-14 09:15:00" }]

/-- Outcome of `handleSearch`: either a circuit handed to
`onCircuitSelect`, or an error string shown in the alert. -/
inductive SearchResult where
  | selected (c : Circuit) : SearchResult
  | failure (msg : String) : SearchResult
deriving DecidableEq, Repr

/-- `handleSearch` of `CircuitSearch`: a blank query is refused; otherwise
the first record whose `circuit_id` equals the query case-insensitively
(both sides `toLowerCase`, the query NOT trimmed) is selected, and with no
match the not-found message naming the raw query is shown. -/
def handleSearch (circuitId : String) : SearchResult :=
  if jsTrim circuitId = "" then .failure "Please enter a Circuit ID"
  else
    match mockCircuits.find? (fun c => jsToLower c.circuit_id == jsToLower circuitId) with
    | some c => .selected c
    | none =>
      .failure ("Circuit ID \"" ++ circuitId ++ "\" not found in the system")

/-- The mutable state of `CircuitDetails` relevant to editing: the
`isEditing` flag, the `editedCircuit` copy and the `errors` object (an
association list keyed by field name). -/
structure DetailsState where
  isEditing : Bool
  editedCircuit : Circuit
  errors : List (String × String)
deriving DecidableEq, Repr

/-- `handleEdit`: enter edit mode with a fresh copy of the original
`circuit` prop and no errors. -/
def handleEdit (circuit : Circuit) (_s : DetailsState) : DetailsState :=
  { isEditing := true, editedCircuit := circuit, errors := [] }

/-- `handleCancel`: leave edit mode, discard the edited copy by resetting
`editedCircuit` to the original `circuit` prop, and clear all errors. -/
def handleCancel (circuit : Circuit) (_s : DetailsState) : DetailsState :=
  { isEditing := false, editedCircuit := circuit, errors := [] }

/-- `\x7b ...errors, [field]: '' \x7d`: overwrite the entry for `field` with the
empty message. -/
def blankErrorFor (errors : List (String × String)) (field : String) :
    List (String × String) :=
  errors.map (fun p => if p.1 = field then (p.1, "") else p)

/-- `handleFieldChange` of `CircuitDetails`: update the edited copy and, if
a non-empty error is recorded for the field, blank it. -/
def handleFieldChange (field value : String) (s : DetailsState) : DetailsState :=
  { s with
    editedCircuit := setCircuitField s.editedCircuit field value
    errors :=
      if ((s.errors.lookup field).getD "") ≠ "" then blankErrorFor s.errors field
      else s.errors }

/-- A sequence of `handleFieldChange` interactions, applied left to right. -/
def applyChanges (changes : List (String × String)) (s : DetailsState) :
    DetailsState :=
  changes.foldl (fun st fv => handleFieldChange fv.1 fv.2 st) s

/-- The specification's description of a valid bandwidth string, stated
independently of the recogniser: one or more digits, then optional
whitespace, then one of the three units compared case-insensitively.  This
is the spec-side shape that `bandwidthOk` is compared against. -/
def BandwidthSpecShape (s : String) : Prop :=
  ∃ d w u : List Char,
    s.data = d ++ w ++ u ∧ d ≠ [] ∧ (∀ c ∈ d, isDigitC c = true) ∧
    (∀ c ∈ w, isSpaceJS c = true) ∧ u.map toLowerC ∈ bwUnits

/-- Whether a character list starts or ends with a JavaScript whitespace
character. -/
def headOrLastSpace (l : List Char) : Bool :=
  (l.head?.map isSpaceJS).getD false || (l.getLast?.map isSpaceJS).getD false

/-- The registration form in its initial state: every field the empty
string, as in the `useState` initialiser. -/
def emptyRegForm : RegForm :=
  { circuit_id := "", client_name := "", client_ip := "", subnet := ""
    dns := "", vlan := "", bandwidth := "", location := "", mux_id := ""
    port_id := "" }

/-- A circuit whose `location`, `mux_id` and `port_id` are shorter than
three characters while every field the edit-path validator has a rule for
is valid. -/
def shortHardwareCircuit : Circuit :=
  { circuit_id := "CKT-001-NYC"
    client_name := "TechCorp Solutions"
    client_ip := "192.168.1.100"
    subnet := "255.255.255.0"
    dns := "8.8.8.8"
    vlan := "100"
    bandwidth := "1 Gbps"
    location := "ab"
    mux_id := "M1"
    port_id := "P1"
    last_updated := "2024-06-14 10:30:00" }

/-! ### List helpers -/

theorem takeWhile_append_of_all {p : Char → Bool} {d : List Char} (r : List Char)
    (h : ∀ c ∈ d, p c = true) : (d ++ r).takeWhile p = d ++ r.takeWhile p := by
  induction d with
  | nil => rfl
  | cons a t ih =>
    have hrest := ih fun c hc => h c (List.mem_cons_of_mem a hc)
    simp [List.takeWhile_cons, h a (List.mem_cons_self a t), hrest]

theorem dropWhile_append_of_all {p : Char → Bool} {d : List Char} (r : List Char)
    (h : ∀ c ∈ d, p c = true) : (d ++ r).dropWhile p = r.dropWhile p := by
  induction d with
  | nil => rfl
  | cons a t ih =>
    have hrest := ih fun c hc => h c (List.mem_cons_of_mem a hc)
    simp [List.dropWhile_cons, h a (List.mem_cons_self a t), hrest]

/-! ### Character-class facts -/

theorem space_mem {c : Char} (h : isSpaceJS c = true) : c ∈ jsWhitespaceChars := by
  simpa [isSpaceJS] using h

theorem space_toLowerC {c : Char} (h : isSpaceJS c = true) : toLowerC c = c := by
  have := space_mem h
  fin_cases this <;> decide

theorem space_not_digit {c : Char} (h : isSpaceJS c = true) : isDigitC c = false := by
  have := space_mem h
  fin_cases this <;> decide

theorem digit_toLowerC {c : Char} (h : isDigitC c = true) : toLowerC c = c := by
  simp only [isDigitC, Bool.and_eq_true, decide_eq_true_eq] at h
  rw [toLowerC, if_neg]
  rintro ⟨hA, _⟩
  exact absurd (le_trans hA h.2) (by decide)

theorem digit_not_space {c : Char} (h : isDigitC c = true) : isSpaceJS c = false := by
  cases hs : isSpaceJS c with
  | false => rfl
  | true => rw [space_not_digit hs] at h; exact absurd h (by simp)

/-- A character whose lower-casing is a unit-initial letter is neither a
digit nor whitespace. -/
theorem unit_head_class {c : Char}
    (h : toLowerC c = 'm' ∨ toLowerC c = 'g' ∨ toLowerC c = 'k') :
    isDigitC c = false ∧ isSpaceJS c = false := by
  constructor
  · cases hd : isDigitC c with
    | false => rfl
    | true =>
      rw [digit_toLowerC hd] at h
      rcases h with h|h|h <;> subst h <;> exact absurd hd (by decide)
  · cases hs : isSpaceJS c with
    | false => rfl
    | true =>
      rw [space_toLowerC hs] at h
      rcases h with h|h|h <;> subst h <;> exact absurd hs (by decide)

/-! ### The bandwidth recogniser matches the spec shape -/

theorem bandwidthOk_iff_spec (s : String) :
    bandwidthOk s = true ↔ BandwidthSpecShape s := by
  constructor
  · intro h
    simp only [bandwidthOk, Bool.and_eq_true, Bool.not_eq_true',
      List.isEmpty_eq_false_iff_exists_mem, decide_eq_true_eq] at h
    obtain ⟨hne, hu⟩ := h
    refine ⟨s.data.takeWhile isDigitC,
      (s.data.dropWhile isDigitC).takeWhile isSpaceJS,
      (s.data.dropWhile isDigitC).dropWhile isSpaceJS, ?_, ?_, ?_, ?_, hu⟩
    · rw [List.append_assoc, List.takeWhile_append_dropWhile,
        List.takeWhile_append_dropWhile]
    · rcases hne with ⟨c, hc⟩
      exact List.ne_nil_of_mem hc
    · exact fun c hc => List.mem_takeWhile_imp hc
    · exact fun c hc => List.mem_takeWhile_imp hc
  · rintro ⟨d, w, u, heq, hd, hdig, hsp, hu⟩
    -- the unit part is nonempty and starts with a non-digit, non-space char
    obtain ⟨c0, u', rfl⟩ : ∃ c0 u', u = c0 :: u' := by
      cases u with
      | nil => simp [bwUnits] at hu
      | cons a t => exact ⟨a, t, rfl⟩
    have hc0 : toLowerC c0 = 'm' ∨ toLowerC c0 = 'g' ∨ toLowerC c0 = 'k' := by
      simp only [bwUnits, List.map_cons, List.mem_cons, List.mem_singleton,
        List.cons.injEq, List.not_mem_nil, or_false] at hu
      rcases hu with ⟨h1, _⟩ | ⟨h1, _⟩ | ⟨h1, _⟩
      · exact Or.inl h1
      · exact Or.inr (Or.inl h1)
      · exact Or.inr (Or.inr h1)
    have ⟨hc0d, hc0s⟩ := unit_head_class hc0
    have hwu_take : (w ++ c0 :: u').takeWhile isDigitC = [] := by
      cases w with
      | nil => simp [List.takeWhile_cons, hc0d]
      | cons a t =>
        have : isDigitC a = false := space_not_digit (hsp a (by simp))
        simp [List.takeWhile_cons, this]
    have hwu_drop : (w ++ c0 :: u').dropWhile isDigitC = w ++ c0 :: u' := by
      cases w with
      | nil => simp [List.dropWhile_cons, hc0d]
      | cons a t =>
        have : isDigitC a = false := space_not_digit (hsp a (by simp))
        simp [List.dropWhile_cons, this]
    have hdrop_sp : (w ++ c0 :: u').dropWhile isSpaceJS = c0 :: u' := by
      rw [dropWhile_append_of_all _ hsp]
      simp [List.dropWhile_cons, hc0s]
    simp only [bandwidthOk, Bool.and_eq_true, Bool.not_eq_true',
      decide_eq_true_eq]
    rw [heq, List.append_assoc, takeWhile_append_of_all _ hdig,
      dropWhile_append_of_all _ hdig, hwu_take, hwu_drop, hdrop_sp]
    constructor
    · simpa [List.isEmpty_iff] using hd
    · simpa using hu

/-! ### parseInt on pure digit strings -/

theorem takeWhile_eq_self_of_all {p : Char → Bool} {l : List Char}
    (h : ∀ c ∈ l, p c = true) : l.takeWhile p = l := by
  have := takeWhile_append_of_all (p := p) (d := l) [] h
  simpa using this

theorem jsParseIntDec_all_digits {p : List Char} (hne : p ≠ [])
    (hd : ∀ c ∈ p, isDigitC c = true) :
    jsParseIntDec 1 p = some ((digitsVal 10 p : Nat) : Int) := by
  simp only [jsParseIntDec, takeWhile_eq_self_of_all hd]
  rw [if_neg (by simpa [List.isEmpty_iff] using hne)]
  simp

theorem jsParseInt_all_digits {p : List Char} (hne : p ≠ [])
    (hd : ∀ c ∈ p, isDigitC c = true) :
    jsParseInt (String.mk p) = some ((digitsVal 10 p : Nat) : Int) := by
  obtain ⟨c, t, rfl⟩ : ∃ c t, p = c :: t := by
    cases p with
    | nil => exact absurd rfl hne
    | cons a t => exact ⟨a, t, rfl⟩
  have hc : isDigitC c = true := hd c (by simp)
  have hcs : isSpaceJS c = false := digit_not_space hc
  have hstep : (String.mk (c :: t)).data.dropWhile isSpaceJS = c :: t := by
    simp [List.dropWhile_cons, hcs]
  rw [jsParseInt, hstep]
  have hcm : c ≠ '-' := by rintro rfl; exact absurd hc (by decide)
  have hcp : c ≠ '+' := by rintro rfl; exact absurd hc (by decide)
  rw [jsParseIntSigned, if_neg hcm, if_neg hcp]
  cases t with
  | nil => exact jsParseIntDec_all_digits hne hd
  | cons x t' =>
    have hx : isDigitC x = true := hd x (by simp)
    have hxx : ¬(c = '0' ∧ (x = 'x' ∨ x = 'X')) := by
      rintro ⟨-, rfl | rfl⟩ <;> exact absurd hx (by decide)
    rw [jsParseIntFrom, if_neg hxx]
    exact jsParseIntDec_all_digits hne hd

/-! ### Error maps built by filterMap with field-name keys -/

theorem filterMap_fst_mem {g : String → Option (String × String)}
    (hg : ∀ a p, g a = some p → p.1 = a) (l : List String) :
    ∀ b ∈ (l.filterMap g).map Prod.fst, b ∈ l := by
  induction l with
  | nil => simp
  | cons a t ih =>
    intro b hb
    rw [List.filterMap_cons] at hb
    cases hga : g a with
    | none =>
      rw [hga] at hb
      exact List.mem_cons_of_mem a (ih b hb)
    | some pr =>
      rw [hga] at hb
      simp only [List.map_cons, List.mem_cons] at hb
      rcases hb with hb | hb
      · rw [hb, hg a pr hga]; exact List.mem_cons_self a t
      · exact List.mem_cons_of_mem a (ih b hb)

theorem filterMap_fst_nodup {g : String → Option (String × String)}
    (hg : ∀ a p, g a = some p → p.1 = a) {l : List String} (hl : l.Nodup) :
    ((l.filterMap g).map Prod.fst).Nodup := by
  induction l with
  | nil => simp
  | cons a t ih =>
    rw [List.nodup_cons] at hl
    rw [List.filterMap_cons]
    cases hga : g a with
    | none => exact ih hl.2
    | some pr =>
      simp only [List.map_cons, List.nodup_cons]
      refine ⟨fun hmem => ?_, ih hl.2⟩
      rw [hg a pr hga] at hmem
      exact hl.1 (filterMap_fst_mem hg t a hmem)

theorem lookup_filterMap_of_mem {g : String → Option (String × String)}
    (hg : ∀ a p, g a = some p → p.1 = a) {l : List String} {a m : String}
    (hal : a ∈ l) (hga : g a = some (a, m)) :
    ((l.filterMap g).lookup a) = some m := by
  induction l with
  | nil => exact absurd hal (List.not_mem_nil a)
  | cons b t ih =>
    rw [List.filterMap_cons]
    by_cases hba : b = a
    · subst hba
      rw [hga, List.lookup_cons]
      simp
    · have hat : a ∈ t := by
        rcases List.mem_cons.mp hal with h | h
        · exact absurd h.symm hba
        · exact h
      cases hgb : g b with
      | none => exact ih hat
      | some pr =>
        have hpr : pr.1 = b := hg b pr hgb
        rw [List.lookup_cons]
        have : (a == pr.1) = false := by
          rw [hpr]; exact beq_false_of_ne (Ne.symm hba)
        rw [this]
        exact ih hat

/-! ### Trimming and whitespace at the ends of a query -/

theorem jsTrim_of_no_end_space {s : String}
    (h : headOrLastSpace s.data = false) : jsTrim s = s := by
  simp only [headOrLastSpace, Bool.or_eq_false_iff] at h
  obtain ⟨hh, hl⟩ := h
  have hdrop : s.data.dropWhile isSpaceJS = s.data := by
    cases hsd : s.data with
    | nil => rfl
    | cons c t =>
      rw [hsd] at hh
      simp only [List.head?_cons, Option.map_some', Option.getD_some] at hh
      simp [List.dropWhile_cons, hh]
  have htr : trimRight s.data = s.data := by
    rw [trimRight]
    cases hrev : s.data.reverse with
    | nil =>
      have : s.data = [] := by simpa using congrArg List.reverse hrev
      simp [this]
    | cons c t =>
      have hlast : s.data.getLast? = some c := by
        rw [List.getLast?_eq_head?_reverse, hrev, List.head?_cons]
      rw [hlast] at hl
      simp only [Option.map_some', Option.getD_some] at hl
      rw [List.dropWhile_cons, if_neg (by simp [hl]), ← hrev, List.reverse_reverse]
  rw [jsTrim, hdrop, htr]

theorem headOrLastSpace_of_ne_trim {s : String} (h : s ≠ jsTrim s) :
    headOrLastSpace s.data = true := by
  cases hh : headOrLastSpace s.data with
  | true => rfl
  | false => exact absurd (jsTrim_of_no_end_space hh).symm h

theorem headOrLastSpace_map_toLowerC {l : List Char}
    (h : headOrLastSpace l = true) : headOrLastSpace (l.map toLowerC) = true := by
  simp only [headOrLastSpace, Bool.or_eq_true] at h ⊢
  rcases h with h | h
  · left
    cases hl : l.head? with
    | none => rw [hl] at h; exact absurd h (by simp)
    | some c =>
      rw [hl] at h
      simp only [Option.map_some', Option.getD_some] at h
      rw [List.head?_map, hl]
      simpa [space_toLowerC h] using h
  · right
    cases hl : l.getLast? with
    | none => rw [hl] at h; exact absurd h (by simp)
    | some c =>
      rw [hl] at h
      simp only [Option.map_some', Option.getD_some] at h
      rw [List.getLast?_map, hl]
      simpa [space_toLowerC h] using h

/-! ### The required-field message is never the empty string -/

theorem requiredMsg_ne_empty (field : String) : requiredMsg field ≠ "" := by
  intro h
  have hlen := congrArg String.length h
  rw [requiredMsg, String.length_append] at hlen
  simp [String.length] at hlen

/-! ### Key discipline of the two error maps -/

theorem submitFieldError_key (f : RegForm) :
    ∀ a p, submitFieldError f a = some p → p.1 = a := by
  intro a p h
  simp only [submitFieldError] at h
  split at h
  · simp only [Option.some.injEq] at h
    rw [← h]
  · split at h
    · exact Option.noConfusion h
    · simp only [Option.some.injEq] at h
      rw [← h]

theorem saveFieldError_key (c : Circuit) :
    ∀ a p, saveFieldError c a = some p → p.1 = a := by
  intro a p h
  simp only [saveFieldError] at h
  split at h
  · exact Option.noConfusion h
  · simp only [Option.some.injEq] at h
    rw [← h]

/-! ### Preservation of `circuit_id` by edits to rendered fields -/

theorem setCircuitField_circuit_id (c : Circuit) {f : String}
    (hf : f ∈ editableFields) (v : String) :
    (setCircuitField c f v).circuit_id = c.circuit_id := by
  fin_cases hf <;> simp [setCircuitField]

theorem handleFieldChange_circuit_id {f : String} (hf : f ∈ editableFields)
    (v : String) (s : DetailsState) :
    (handleFieldChange f v s).editedCircuit.circuit_id =
      s.editedCircuit.circuit_id := by
  simp only [handleFieldChange]
  exact setCircuitField_circuit_id _ hf _

theorem applyChanges_circuit_id {changes : List (String × String)}
    (h : ∀ fv ∈ changes, fv.1 ∈ editableFields) (s : DetailsState) :
    (applyChanges changes s).editedCircuit.circuit_id =
      s.editedCircuit.circuit_id := by
  induction changes generalizing s with
  | nil => rfl
  | cons fv rest ih =>
    have hstep : applyChanges (fv :: rest) s =
        applyChanges rest (handleFieldChange fv.1 fv.2 s) := rfl
    rw [hstep, ih (fun x hx => h x (List.mem_cons_of_mem _ hx))]
    exact handleFieldChange_circuit_id (h fv (List.mem_cons_self _ _)) _ _

/-! ### Claim theorems, first batch -/

/-- C6: for every record, entering edit mode, applying any sequence of
field changes to the editable copy, and canceling yields a state whose
`editedCircuit` is exactly the original record (bit-for-bit), with edit
mode off and all field errors cleared; the edited copy is discarded. -/
theorem cancel_reverts_and_clears (circuit : Circuit) (s0 : DetailsState)
    (changes : List (String × String)) :
    handleCancel circuit (applyChanges changes (handleEdit circuit s0)) =
      { isEditing := false, editedCircuit := circuit, errors := [] } := rfl

/-- C7: a record emitted by a successful registration has `last_updated`
equal to the timestamp taken at emission and every other field verbatim
from the form (in particular `circuit_id` is the submitted identifier); a
record emitted by a successful edit-save has `last_updated` equal to that
timestamp and every other field, `circuit_id` included, verbatim from the
edited copy; and no sequence of changes through the rendered editable
fields can alter the edited copy's `circuit_id`. -/
theorem emitted_record_shape :
    (∀ (f : RegForm) (now : String),
      handleSubmit f now = none ∨
        handleSubmit f now = some ⟨f.circuit_id, f.client_name, f.client_ip,
          f.subnet, f.dns, f.vlan, f.bandwidth, f.location, f.mux_id,
          f.port_id, now⟩) ∧
    (∀ (c : Circuit) (now : String),
      handleSave c now = none ∨
        handleSave c now = some ⟨c.circuit_id, c.client_name, c.client_ip,
          c.subnet, c.dns, c.vlan, c.bandwidth, c.location, c.mux_id,
          c.port_id, now⟩) ∧
    (∀ (circuit : Circuit) (s0 : DetailsState)
        (changes : List (String × String)),
      (∀ fv ∈ changes, fv.1 ∈ editableFields) →
      (applyChanges changes (handleEdit circuit s0)).editedCircuit.circuit_id =
        circuit.circuit_id) := by
  refine ⟨fun f now => ?_, fun c now => ?_, fun circuit s0 changes h => ?_⟩
  · rw [handleSubmit]
    by_cases hs : submitErrors f = []
    · exact Or.inr (by rw [if_pos hs])
    · exact Or.inl (by rw [if_neg hs])
  · rw [handleSave]
    by_cases hs : saveErrors c = []
    · exact Or.inr (by rw [if_pos hs])
    · exact Or.inl (by rw [if_neg hs])
  · rw [applyChanges_circuit_id h]
    rfl

/-- C7 witness: a concrete change sequence through rendered fields leaves
the identifier of the edited copy unchanged. -/
theorem emitted_record_shape_witness :
    (applyChanges [("client_name", "Changed Corp"), ("vlan", "777")]
        (handleEdit shortHardwareCircuit
          ⟨false, shortHardwareCircuit, []⟩)).editedCircuit.circuit_id =
      shortHardwareCircuit.circuit_id :=
  emitted_record_shape.2.2 shortHardwareCircuit ⟨false, shortHardwareCircuit, []⟩
    [("client_name", "Changed Corp"), ("vlan", "777")] (by decide)

/-- C8: on both flows the full-form validation pass yields a map with at
most one entry per field (keys are pairwise distinct), every recorded
message is non-empty, and a non-empty map aborts the operation: no record
is synthesized or emitted. -/
theorem error_map_aggregation :
    (∀ f : RegForm, ((submitErrors f).map Prod.fst).Nodup) ∧
    (∀ f : RegForm, ∀ p ∈ submitErrors f, p.2 ≠ "") ∧
    (∀ c : Circuit, ((saveErrors c).map Prod.fst).Nodup) ∧
    (∀ c : Circuit, ∀ p ∈ saveErrors c, p.2 ≠ "") ∧
    (∀ (f : RegForm) (now : String),
      submitErrors f ≠ [] → handleSubmit f now = none) ∧
    (∀ (c : Circuit) (now : String),
      saveErrors c ≠ [] → handleSave c now = none) := by
  refine ⟨fun f => ?_, fun f p hp => ?_, fun c => ?_, fun c p hp => ?_,
    fun f now h => ?_, fun c now h => ?_⟩
  · exact filterMap_fst_nodup (submitFieldError_key f) (by decide)
  · obtain ⟨a, _, ha⟩ := List.mem_filterMap.mp hp
    simp only [submitFieldError] at ha
    split at ha
    · simp only [Option.some.injEq] at ha
      rw [← ha]
      exact requiredMsg_ne_empty a
    · split at ha
      · exact Option.noConfusion ha
      · simp only [Option.some.injEq] at ha
        rw [← ha]
        assumption
  · exact filterMap_fst_nodup (saveFieldError_key c) (by decide)
  · obtain ⟨a, _, ha⟩ := List.mem_filterMap.mp hp
    simp only [saveFieldError] at ha
    split at ha
    · exact Option.noConfusion ha
    · simp only [Option.some.injEq] at ha
      rw [← ha]
      assumption
  · rw [handleSubmit, if_neg h]
  · rw [handleSave, if_neg h]

/-- C8 witness: the all-blank registration form has a non-empty error map
and its submission is aborted. -/
theorem error_map_aggregation_witness :
    submitErrors emptyRegForm ≠ [] ∧
      handleSubmit emptyRegForm "2024-06-15 00:00:00" = none :=
  ⟨by decide,
    error_map_aggregation.2.2.2.2.1 emptyRegForm "2024-06-15 00:00:00" (by decide)⟩

/-- C2 counterexample: a record whose `location`, `mux_id` and `port_id`
all have fewer than three characters is saved successfully — the edit-path
save emits an updated record instead of rejecting it. -/
theorem short_hardware_fields_still_save :
    shortHardwareCircuit.location.length < 3 ∧
      shortHardwareCircuit.mux_id.length < 3 ∧
      shortHardwareCircuit.port_id.length < 3 ∧
      handleSave shortHardwareCircuit "2024-06-15 00:00:00" =
        some { shortHardwareCircuit with
                 last_updated := "2024-06-15 00:00:00" } := by
  decide

/-- C2 amended: the edit-path save runs `validateField` over the whole
editable subset and succeeds exactly when every one of those fields
validates; however the edit-path `validateField` has no rule for
`location`, `mux_id` or `port_id`, so those always validate regardless of
length and can never cause the save to be rejected. -/
theorem save_validates_editable_subset :
    (∀ v : String,
      validateFieldEdit "location" v = "" ∧
        validateFieldEdit "mux_id" v = "" ∧
        validateFieldEdit "port_id" v = "") ∧
    (∀ (c : Circuit) (now : String),
      (handleSave c now).isSome = true ↔
        ∀ f ∈ editableFields,
          validateFieldEdit f (getCircuitField c f) = "") := by
  constructor
  · intro v
    refine ⟨?_, ?_, ?_⟩ <;> simp [validateFieldEdit]
  · intro c now
    rw [handleSave]
    by_cases h : saveErrors c = []
    · rw [if_pos h]
      simp only [Option.isSome_some, true_iff]
      intro f hf
      have h2 := List.filterMap_eq_nil_iff.mp h f hf
      simp only [saveFieldError] at h2
      by_cases he : validateFieldEdit f (getCircuitField c f) = ""
      · exact he
      · rw [if_neg he] at h2
        exact Option.noConfusion h2
    · rw [if_neg h]
      simp only [Option.isSome_none]
      constructor
      · intro hco
        exact absurd hco (by simp)
      · intro hall
        refine absurd (List.filterMap_eq_nil_iff.mpr fun f hf => ?_) h
        simp only [saveFieldError]
        rw [if_pos (hall f hf)]

/-- C2 amended witness: the counterexample circuit satisfies the
right-hand side of the save characterisation, so its save succeeds. -/
theorem save_validates_editable_subset_witness :
    (handleSave shortHardwareCircuit "2024-06-15 00:00:00").isSome = true :=
  (save_validates_editable_subset.2 shortHardwareCircuit
    "2024-06-15 00:00:00").mpr (by decide)

/-- C3: VLAN validation is identical on the two paths and accepts a string
exactly when `parseInt` yields an integer in the closed range [1, 4094];
"0" and "4095" are rejected with the range error, "1" and "4094" are
accepted, and every string `parseInt` cannot parse (`NaN`) is rejected. -/
theorem vlan_range_characterisation :
    (∀ s : String, validateFieldEdit "vlan" s = validateFieldReg "vlan" s) ∧
    (∀ s : String, validateFieldReg "vlan" s = "" ↔
      ∃ n : Int, jsParseInt s = some n ∧ 1 ≤ n ∧ n ≤ 4094) ∧
    validateFieldReg "vlan" "0" = "VLAN must be between 1-4094" ∧
    validateFieldReg "vlan" "4095" = "VLAN must be between 1-4094" ∧
    validateFieldReg "vlan" "1" = "" ∧
    validateFieldReg "vlan" "4094" = "" ∧
    (∀ s : String, jsParseInt s = none →
      validateFieldReg "vlan" s = "VLAN must be between 1-4094") := by
  have hv : ∀ s : String, validateFieldReg "vlan" s = vlanRule s := by
    intro s
    simp [validateFieldReg]
  have hconc : validateFieldReg "vlan" "0" = "VLAN must be between 1-4094" ∧
      validateFieldReg "vlan" "4095" = "VLAN must be between 1-4094" ∧
      validateFieldReg "vlan" "1" = "" ∧
      validateFieldReg "vlan" "4094" = "" := by decide
  refine ⟨fun s => ?_, fun s => ?_, hconc.1, hconc.2.1, hconc.2.2.1,
    hconc.2.2.2, fun s h => ?_⟩
  · simp [validateFieldEdit, validateFieldReg]
  · rw [hv, vlanRule]
    cases hp : jsParseInt s with
    | none =>
      constructor
      · intro habs
        exact absurd habs (by decide)
      · rintro ⟨n, hn, -, -⟩
        exact Option.noConfusion hn
    | some n =>
      show (if n < 1 ∨ 4094 < n then "VLAN must be between 1-4094" else "") = ""
        ↔ ∃ m : Int, some n = some m ∧ 1 ≤ m ∧ m ≤ 4094
      by_cases hn : n < 1 ∨ 4094 < n
      · rw [if_pos hn]
        constructor
        · intro habs
          exact absurd habs (by decide)
        · rintro ⟨m, hm, h1, h2⟩
          simp only [Option.some.injEq] at hm
          subst hm
          omega
      · rw [if_neg hn]
        push_neg at hn
        exact ⟨fun _ => ⟨n, rfl, by omega, by omega⟩, fun _ => rfl⟩
  · rw [hv, vlanRule, h]

/-- C3 witness: a string with no parseable digits is rejected, and 2000 is
accepted via the characterisation. -/
theorem vlan_range_characterisation_witness :
    validateFieldReg "vlan" "abc" = "VLAN must be between 1-4094" ∧
      validateFieldReg "vlan" "2000" = "" :=
  ⟨vlan_range_characterisation.2.2.2.2.2.2 "abc" (by decide),
    (vlan_range_characterisation.2.1 "2000").mpr ⟨2000, by decide, by decide, by decide⟩⟩

/-- C4: bandwidth validation is identical on the two paths and accepts a
string exactly when it consists of one or more digits, optional
whitespace, and one of the units Kbps/Mbps/Gbps compared
case-insensitively; "100 Mbps", "1Gbps" and "50 kbps" pass while "100"
and "100 Mbs" fail with the unit error. -/
theorem bandwidth_shape_characterisation :
    (∀ s : String,
      validateFieldEdit "bandwidth" s = validateFieldReg "bandwidth" s) ∧
    (∀ s : String,
      validateFieldReg "bandwidth" s = "" ↔ BandwidthSpecShape s) ∧
    validateFieldReg "bandwidth" "100 Mbps" = "" ∧
    validateFieldReg "bandwidth" "1Gbps" = "" ∧
    validateFieldReg "bandwidth" "50 kbps" = "" ∧
    validateFieldReg "bandwidth" "100" =
      "Bandwidth must include unit (e.g., 100 Mbps, 1 Gbps)" ∧
    validateFieldReg "bandwidth" "100 Mbs" =
      "Bandwidth must include unit (e.g., 100 Mbps, 1 Gbps)" := by
  have hv : ∀ s : String, validateFieldReg "bandwidth" s = bandwidthRule s := by
    intro s
    simp [validateFieldReg]
  have hconc : validateFieldReg "bandwidth" "100 Mbps" = "" ∧
      validateFieldReg "bandwidth" "1Gbps" = "" ∧
      validateFieldReg "bandwidth" "50 kbps" = "" ∧
      validateFieldReg "bandwidth" "100" =
        "Bandwidth must include unit (e.g., 100 Mbps, 1 Gbps)" ∧
      validateFieldReg "bandwidth" "100 Mbs" =
        "Bandwidth must include unit (e.g., 100 Mbps, 1 Gbps)" := by decide
  refine ⟨fun s => ?_, fun s => ?_, hconc.1, hconc.2.1, hconc.2.2.1,
    hconc.2.2.2.1, hconc.2.2.2.2⟩
  · simp [validateFieldEdit, validateFieldReg]
  · rw [hv, bandwidthRule]
    by_cases hb : bandwidthOk s = true
    · rw [if_pos hb]
      exact ⟨fun _ => (bandwidthOk_iff_spec s).mp hb, fun _ => rfl⟩
    · rw [if_neg hb]
      constructor
      · intro habs
        exact absurd habs (by decide)
      · intro hsp
        exact absurd ((bandwidthOk_iff_spec s).mpr hsp) hb

/-- Every group of a shape-matching dotted quad is a nonempty digit run of
at most three characters. -/
theorem ipShape_groups {v : String} (hshape : ipShape v = true) :
    ∀ p ∈ splitOnDots v.data, octetShape p = true := by
  rw [ipShape] at hshape
  split at hshape
  · next a b c d heq =>
    intro p hp
    rw [heq] at hp
    simp only [Bool.and_eq_true] at hshape
    obtain ⟨⟨⟨ha, hb⟩, hc⟩, hd⟩ := hshape
    simp only [List.mem_cons, List.not_mem_nil, or_false] at hp
    rcases hp with rfl | rfl | rfl | rfl <;> assumption
  · exact absurd hshape (by simp)

/-- C1: for every dotted-quad string matching the four-group shape and
containing a group whose integer value exceeds 255, the edit-path
validator returns the octet-range error for `client_ip`, `subnet` and
`dns` — an error distinct from the corresponding shape error — while the
registration-path validator accepts the value. -/
theorem octet_range_edit_vs_registration (v : String)
    (hshape : ipShape v = true)
    (hover : ∃ p ∈ splitOnDots v.data, 255 < digitsVal 10 p) :
    validateFieldEdit "client_ip" v = "IP address octets must be 0-255" ∧
    validateFieldEdit "subnet" v = "Subnet mask octets must be 0-255" ∧
    validateFieldEdit "dns" v = "DNS server octets must be 0-255" ∧
    validateFieldReg "client_ip" v = "" ∧
    validateFieldReg "subnet" v = "" ∧
    validateFieldReg "dns" v = "" ∧
    ("IP address octets must be 0-255" : String) ≠ "Invalid IP address format" ∧
    ("Subnet mask octets must be 0-255" : String) ≠ "Invalid subnet mask format" ∧
    ("DNS server octets must be 0-255" : String) ≠ "Invalid DNS server format" := by
  obtain ⟨p, hp, hval⟩ := hover
  have hps := ipShape_groups hshape p hp
  simp only [octetShape, Bool.and_eq_true, decide_eq_true_eq,
    List.all_eq_true] at hps
  obtain ⟨⟨h1, -⟩, hdig⟩ := hps
  have hne : p ≠ [] := by
    rintro rfl
    simp at h1
  have hpar := jsParseInt_all_digits hne hdig
  have hgt : jsGt255 p = true := by
    simp only [jsGt255, hpar, decide_eq_true_eq]
    exact_mod_cast hval
  have hov : anyOctetOver255 v = true := by
    rw [anyOctetOver255, List.any_eq_true]
    exact ⟨p, hp, hgt⟩
  refine ⟨?_, ?_, ?_, ?_, ?_, ?_, by decide, by decide, by decide⟩ <;>
    simp [validateFieldEdit, validateFieldReg, ipRuleEdit, hshape, hov]

/-- C1 witness: "300.0.0.1" matches the shape, its first group is 300, the
edit path rejects it with the octet-range error and the registration path
accepts it. -/
theorem octet_range_edit_vs_registration_witness :
    validateFieldEdit "client_ip" "300.0.0.1" =
        "IP address octets must be 0-255" ∧
      validateFieldReg "client_ip" "300.0.0.1" = "" :=
  (fun h => ⟨h.1, h.2.2.2.1⟩)
    (octet_range_edit_vs_registration "300.0.0.1" (by decide) (by decide))

/-- C9: on registration submission, every field whose value is blank or
whitespace-only is recorded in the error map under exactly the message
"<Field Name> is required" — the per-field validator is not consulted —
where the displayed name replaces the underscore by a space and
upper-cases the first letter of each word, as the ten concrete field names
show. -/
theorem required_message_on_blank :
    (∀ (f : RegForm) (field : String), field ∈ regFields →
      jsTrim (getRegField f field) = "" →
      (submitErrors f).lookup field = some (requiredMsg field)) ∧
    requiredMsg "circuit_id" = "Circuit Id is required" ∧
    requiredMsg "client_name" = "Client Name is required" ∧
    requiredMsg "client_ip" = "Client Ip is required" ∧
    requiredMsg "subnet" = "Subnet is required" ∧
    requiredMsg "dns" = "Dns is required" ∧
    requiredMsg "vlan" = "Vlan is required" ∧
    requiredMsg "bandwidth" = "Bandwidth is required" ∧
    requiredMsg "location" = "Location is required" ∧
    requiredMsg "mux_id" = "Mux Id is required" ∧
    requiredMsg "port_id" = "Port Id is required" := by
  refine ⟨fun f field hmem hblank => ?_, by decide⟩
  refine lookup_filterMap_of_mem (submitFieldError_key f) hmem ?_
  simp only [submitFieldError]
  rw [if_pos hblank]

/-- C9 witness: the blank `circuit_id` of the empty form is reported as
"Circuit Id is required". -/
theorem required_message_on_blank_witness :
    (submitErrors emptyRegForm).lookup "circuit_id" =
      some (requiredMsg "circuit_id") :=
  required_message_on_blank.1 emptyRegForm "circuit_id" (by decide) (by decide)

/-- C5: for every non-blank query, lookup selects a record only if it is
in the demo list and its identifier matches the query case-insensitively;
when such a record exists one is selected, and when none matches the
result is a failure message containing the queried identifier verbatim. -/
theorem lookup_case_insensitive (q : String) (hq : jsTrim q ≠ "") :
    (∀ c : Circuit, handleSearch q = SearchResult.selected c →
      c ∈ mockCircuits ∧ jsToLower c.circuit_id = jsToLower q) ∧
    ((∃ c ∈ mockCircuits, jsToLower c.circuit_id = jsToLower q) →
      ∃ c, handleSearch q = SearchResult.selected c) ∧
    ((∀ c ∈ mockCircuits, jsToLower c.circuit_id ≠ jsToLower q) →
      ∃ pre post : String,
        handleSearch q = SearchResult.failure (pre ++ q ++ post)) := by
  rw [handleSearch, if_neg hq]
  cases hfind : mockCircuits.find? (fun c => jsToLower c.circuit_id == jsToLower q) with
  | some c =>
    simp only [hfind]
    refine ⟨?_, fun _ => ⟨c, rfl⟩, ?_⟩
    · intro c' hsel
      injection hsel with h'
      subst h'
      refine ⟨List.mem_of_find?_eq_some hfind, ?_⟩
      have := List.find?_some hfind
      simpa [beq_iff_eq] using this
    · intro hall
      exfalso
      have hpred := List.find?_some hfind
      have hmem := List.mem_of_find?_eq_some hfind
      exact hall c hmem (by simpa [beq_iff_eq] using hpred)
  | none =>
    simp only [hfind]
    refine ⟨fun c' h => SearchResult.noConfusion h, ?_, ?_⟩
    · rintro ⟨c, hc, he⟩
      have := List.find?_eq_none.mp hfind c hc
      exact absurd he (by simpa using this)
    · intro _
      exact ⟨"Circuit ID \"", "\" not found in the system", rfl⟩

/-- C5 witness: the demo identifier queried in lower case is found, and an
absent identifier produces the not-found message containing the query. -/
theorem lookup_case_insensitive_witness :
    (∃ c, handleSearch "ckt-003-chi" = SearchResult.selected c) ∧
      (∃ pre post : String,
        handleSearch "CKT-999-OOPS" =
          SearchResult.failure (pre ++ "CKT-999-OOPS" ++ post)) :=
  ⟨(lookup_case_insensitive "ckt-003-chi" (by decide)).2.1 (by decide),
    (lookup_case_insensitive "CKT-999-OOPS" (by decide)).2.2 (by decide)⟩

/-- C10: lookup compares the query untrimmed, so every query that is
non-blank after trimming but still carries leading or trailing whitespace
fails with the not-found message naming the raw query, even if its trimmed
form matches a record. -/
theorem untrimmed_query_not_found (q : String) (hq : jsTrim q ≠ "")
    (hne : q ≠ jsTrim q) :
    ∃ pre post : String,
      handleSearch q = SearchResult.failure (pre ++ q ++ post) := by
  have hsp := headOrLastSpace_of_ne_trim hne
  have hlow := headOrLastSpace_map_toLowerC hsp
  have hnomatch : ∀ c ∈ mockCircuits,
      (jsToLower c.circuit_id == jsToLower q) = false := by
    intro c hc
    rw [beq_eq_false_iff_ne]
    intro he
    have hdata : c.circuit_id.data.map toLowerC = q.data.map toLowerC :=
      congrArg String.data he
    have hlow' := hlow
    rw [← hdata] at hlow'
    fin_cases hc <;> exact absurd hlow' (by decide)
  have hfind : mockCircuits.find?
      (fun c => jsToLower c.circuit_id == jsToLower q) = none := by
    rw [List.find?_eq_none]
    intro c hc
    simp [hnomatch c hc]
  rw [handleSearch, if_neg hq]
  simp only [hfind]
  exact ⟨"Circuit ID \"", "\" not found in the system", rfl⟩

/-- C10 witness: " CKT-001-NYC " trims to an existing identifier yet the
lookup fails, naming the raw whitespace-bearing query. -/
theorem untrimmed_query_not_found_witness :
    jsTrim " CKT-001-NYC " = "CKT-001-NYC" ∧
      (∃ pre post : String,
        handleSearch " CKT-001-NYC " =
          SearchResult.failure (pre ++ " CKT-001-NYC " ++ post)) :=
  ⟨by decide, untrimmed_query_not_found " CKT-001-NYC " (by decide) (by decide)⟩
